import Mathlib

/-!
Verification development for the operatortrace repository (Go).

Shallow embedding of the components the claims concern:
* the trace-context codec (pkg/tracecontext/tracecontext.go), together with a
  model of the OpenTelemetry helpers it calls (trace.TraceIDFromHex,
  trace.SpanIDFromHex, the W3C traceparent extraction performed by
  propagation.TraceContext, which the repository installs as the global
  propagator);
* the annotation helpers (pkg/client/annotations.go, pkg/client/options.go);
* the tracing queue (pkg/tracingqueue/tracingqueue.go, the generation that
  keeps a softDeleted map), together with a model of the backing
  client-go workqueue (queue list + dirty set + processing set);
* the span-start helper (pkg/client/span_helpers.go, the generation taking a
  linked-span array) and the condition accessors it uses
  (pkg/client/conditions.go).

Machine integers: Go byte values are modelled as Nat (always < 256 where
produced), Go time.Time instants as Int nanoseconds measured from Go's zero
time (0001-01-01T00:00:00 UTC), so time.Time.IsZero corresponds to the
value 0 and time.Since ts corresponds to now - ts.  Go fallible functions
(value, error) are modelled as Option.  Go maps are modelled as functions
into Option (queue maps) or association lists (annotation maps, where the
code also asks for the map length).
-/

/-! ### Hex digits and byte strings (model of encoding/hex and the otel
decodeHex helper).  trace.TraceIDFromHex and trace.SpanIDFromHex accept
lowercase hex only; the hex decoding used inside the propagator's
traceparent extraction (encoding/hex) accepts both cases. -/

def hexDigitVal (c : Char) : Option Nat :=
  if c = '0' then some 0
  else if c = '1' then some 1
  else if c = '2' then some 2
  else if c = '3' then some 3
  else if c = '4' then some 4
  else if c = '5' then some 5
  else if c = '6' then some 6
  else if c = '7' then some 7
  else if c = '8' then some 8
  else if c = '9' then some 9
  else if c = 'a' then some 10
  else if c = 'b' then some 11
  else if c = 'c' then some 12
  else if c = 'd' then some 13
  else if c = 'e' then some 14
  else if c = 'f' then some 15
  else none

def hexDigitValAny (c : Char) : Option Nat :=
  match hexDigitVal c with
  | some v => some v
  | none =>
    if c = 'A' then some 10
    else if c = 'B' then some 11
    else if c = 'C' then some 12
    else if c = 'D' then some 13
    else if c = 'E' then some 14
    else if c = 'F' then some 15
    else none

/-- Lowercase hex digit for a nibble (model of encoding/hex encoding). -/
def hexDigitChar (n : Nat) : Char :=
  if n = 0 then '0'
  else if n = 1 then '1'
  else if n = 2 then '2'
  else if n = 3 then '3'
  else if n = 4 then '4'
  else if n = 5 then '5'
  else if n = 6 then '6'
  else if n = 7 then '7'
  else if n = 8 then '8'
  else if n = 9 then '9'
  else if n = 10 then 'a'
  else if n = 11 then 'b'
  else if n = 12 then 'c'
  else if n = 13 then 'd'
  else if n = 14 then 'e'
  else 'f'

/-- Decode a lowercase hex character list, two characters per byte. -/
def decodeHexBytes : List Char → Option (List Nat)
  | [] => some []
  | c1 :: c2 :: rest =>
    match hexDigitVal c1, hexDigitVal c2, decodeHexBytes rest with
    | some h, some l, some bs => some ((16 * h + l) :: bs)
    | _, _, _ => none
  | [_] => none

/-- Decode a hex character list accepting both cases (encoding/hex). -/
def decodeHexBytesAny : List Char → Option (List Nat)
  | [] => some []
  | c1 :: c2 :: rest =>
    match hexDigitValAny c1, hexDigitValAny c2, decodeHexBytesAny rest with
    | some h, some l, some bs => some ((16 * h + l) :: bs)
    | _, _, _ => none
  | [_] => none

/-- Lowercase hex encoding of a byte list (model of TraceID.String and
SpanID.String, which use encoding/hex). -/
def encodeHexList : List Nat → List Char
  | [] => []
  | b :: bs => hexDigitChar (b / 16) :: hexDigitChar (b % 16) :: encodeHexList bs

def encodeHexString (bs : List Nat) : String :=
  String.mk (encodeHexList bs)

/-- Model of otel trace.TraceIDFromHex: requires length 32, lowercase hex,
and a non-zero identifier. -/
def TraceIDFromHex (h : String) : Option (List Nat) :=
  if h.length = 32 then
    match decodeHexBytes h.data with
    | some bs => if bs.all (fun b => b == 0) then none else some bs
    | none => none
  else none

/-- Model of otel trace.SpanIDFromHex: requires length 16, lowercase hex,
and a non-zero identifier. -/
def SpanIDFromHex (h : String) : Option (List Nat) :=
  if h.length = 16 then
    match decodeHexBytes h.data with
    | some bs => if bs.all (fun b => b == 0) then none else some bs
    | none => none
  else none

/-! ### Span contexts and the W3C traceparent extraction.

The repository installs propagation.TraceContext as the global otel
propagator, so SpanContextFromTraceData's Extract call runs the W3C
traceparent parser modelled here.  The tracestate attachment performed by
the propagator never affects whether extraction succeeds (a tracestate
parse failure is ignored), so the span-context model carries no tracestate
field. -/

structure SpanContext where
  traceID : List Nat
  spanID : List Nat
  traceFlags : Nat
  remote : Bool
deriving DecidableEq

def zeroTraceIDBytes : List Nat := List.replicate 16 0

def zeroSpanIDBytes : List Nat := List.replicate 8 0

/-- Model of trace.SpanContext.IsValid: both identifiers non-zero (their
lengths are fixed by the Go array types; the length conditions record that
type invariant). -/
def SpanContext.isValid (sc : SpanContext) : Bool :=
  sc.traceID.length == 16 && !(sc.traceID.all (fun b => b == 0)) &&
    (sc.spanID.length == 8 && !(sc.spanID.all (fun b => b == 0)))

/-- strings.Cut on the dash separator: characters before the first dash,
and the remainder after it (the whole input and an empty remainder when no
dash occurs). -/
def cutDash : List Char → List Char × List Char
  | [] => ([], [])
  | c :: rest =>
    if c = '-' then ([], rest)
    else
      let p := cutDash rest
      (c :: p.1, p.2)

/-- Model of the propagator's extractPart helper: cut the next
dash-separated field, require exactly n characters, hex-decode it. -/
def extractPartHex (n : Nat) (h : List Char) : Option (List Nat × List Char) :=
  let p := cutDash h
  if p.1.length = n then
    match decodeHexBytesAny p.1 with
    | some bs => some (bs, p.2)
    | none => none
  else none

/-- Model of propagation.TraceContext's traceparent extraction: version
byte (255 rejected), 16-byte trace id, 8-byte span id, flags byte masked
to the sampled bit, no trailing data for version 0, and a final validity
check rejecting all-zero identifiers. -/
def w3cExtractSpanContext (h : List Char) : Option SpanContext :=
  match extractPartHex 2 h with
  | none => none
  | some (verBytes, h1) =>
    let version := verBytes.headD 0
    if 254 < version then none
    else
      match extractPartHex 32 h1 with
      | none => none
      | some (tid, h2) =>
        match extractPartHex 16 h2 with
        | none => none
        | some (sid, h3) =>
          match extractPartHex 2 h3 with
          | none => none
          | some (flagBytes, h4) =>
            if version = 0 ∧ h4 ≠ [] then none
            else if tid.all (fun b => b == 0) || sid.all (fun b => b == 0) then none
            else some ⟨tid, sid, (flagBytes.headD 0) &&& 1, true⟩

/-- Model of tracecontext.TraceParentFromIDs: reject empty input, validate
both identifiers via the otel hex parsers, and print the fixed layout with
the sampled flag.  The printed identifiers are the re-encoded parses
(Sprintf uses TraceID.String and SpanID.String). -/
def TraceParentFromIDs (traceIDHex spanIDHex : String) : Option String :=
  if traceIDHex = "" ∨ spanIDHex = "" then none
  else
    match TraceIDFromHex traceIDHex, SpanIDFromHex spanIDHex with
    | some tid, some sid =>
      some ("00-" ++ encodeHexString tid ++ "-" ++ encodeHexString sid ++ "-01")
    | _, _ => none

/-- Model of tracecontext.SpanContextFromTraceData: reject an empty
traceparent, then run the propagator's extraction; an extraction that
yields an invalid context leaves the ambient context untouched, which the
function reports as an error (none). -/
def SpanContextFromTraceData (traceParent traceState : String) : Option SpanContext :=
  if traceParent = "" then none
  else w3cExtractSpanContext traceParent.data

/-! ### Timestamps.

Go time.Time instants are modelled as Int nanoseconds from Go's zero time
(0001-01-01T00:00:00 UTC, proleptic Gregorian calendar), so IsZero is the
test against 0.  parseRFC3339 models time.Parse with the RFC3339 /
RFC3339Nano layouts (Go's parser accepts an optional fractional-seconds
part for both layouts, and an offset that is either Z or a signed
hour:minute pair). -/

def isDigitChar (c : Char) : Bool :=
  '0' ≤ c && c ≤ '9'

def digitVal (c : Char) : Nat :=
  c.toNat - 48

/-- Parse exactly n digits into a number, returning the remainder. -/
def parseDigitsAcc : Nat → Nat → List Char → Option (Nat × List Char)
  | 0, acc, cs => some (acc, cs)
  | n + 1, acc, c :: cs =>
    if isDigitChar c then parseDigitsAcc n (acc * 10 + digitVal c) cs else none
  | _ + 1, _, [] => none

def expectChar (c : Char) : List Char → Option (List Char)
  | c' :: rest => if c' = c then some rest else none
  | [] => none

/-- Consume an optional fractional-seconds part, returning nanoseconds.
Go scales the first nine fractional digits to nanoseconds and ignores the
rest. -/
def parseFracNanos : List Char → Nat × List Char
  | '.' :: c :: cs =>
    if isDigitChar c then
      let rec go : List Char → Nat → Nat → Nat × List Char
        | d :: ds, acc, count =>
          if isDigitChar d then
            if count < 9 then go ds (acc * 10 + digitVal d) (count + 1)
            else go ds acc count
          else (acc * 10 ^ (9 - count), d :: ds)
        | [], acc, count => (acc * 10 ^ (9 - count), [])
      go (c :: cs) 0 0
    else (0, '.' :: c :: cs)
  | cs => (0, cs)

def isLeapYear (y : Nat) : Bool :=
  y % 4 == 0 && (y % 100 != 0 || y % 400 == 0)

def daysInMonth (y m : Nat) : Nat :=
  if m = 2 then (if isLeapYear y then 29 else 28)
  else if m = 4 ∨ m = 6 ∨ m = 9 ∨ m = 11 then 30
  else 31

/-- Days from 0001-01-01 to the start of year y (proleptic Gregorian). -/
def daysBeforeYear (y : Nat) : Nat :=
  let n := y - 1
  n * 365 + n / 4 - n / 100 + n / 400

def daysBeforeMonth (y m : Nat) : Nat :=
  (List.range (m - 1)).foldl (fun acc i => acc + daysInMonth y (i + 1)) 0

/-- Parse the trailing offset: Z, or a sign followed by hours:minutes.
Returns the offset in seconds east of UTC.  The offset must end the
string. -/
def parseOffset : List Char → Option Int
  | ['Z'] => some 0
  | s :: rest =>
    if s = '+' ∨ s = '-' then
      match parseDigitsAcc 2 0 rest with
      | some (oh, r1) =>
        match expectChar ':' r1 with
        | some r2 =>
          match parseDigitsAcc 2 0 r2 with
          | some (om, r3) =>
            if r3 = [] ∧ oh ≤ 23 ∧ om ≤ 59 then
              some (if s = '+' then (oh * 3600 + om * 60 : Int)
                    else -(oh * 3600 + om * 60 : Int))
            else none
          | none => none
        | none => none
      | none => none
    else none
  | [] => none

/-- Model of Go time.Parse with the RFC3339 / RFC3339Nano layouts,
returning UTC nanoseconds from the zero time.  Field ranges are validated
as in Go (month 1-12, day within the month, hour below 24, minute and
second below 60). -/
def parseRFC3339 (s : String) : Option Int :=
  match parseDigitsAcc 4 0 s.data with
  | none => none
  | some (year, r1) =>
    match expectChar '-' r1 with
    | none => none
    | some r2 =>
      match parseDigitsAcc 2 0 r2 with
      | none => none
      | some (month, r3) =>
        match expectChar '-' r3 with
        | none => none
        | some r4 =>
          match parseDigitsAcc 2 0 r4 with
          | none => none
          | some (day, r5) =>
            match expectChar 'T' r5 with
            | none => none
            | some r6 =>
              match parseDigitsAcc 2 0 r6 with
              | none => none
              | some (hh, r7) =>
                match expectChar ':' r7 with
                | none => none
                | some r8 =>
                  match parseDigitsAcc 2 0 r8 with
                  | none => none
                  | some (mi, r9) =>
                    match expectChar ':' r9 with
                    | none => none
                    | some r10 =>
                      match parseDigitsAcc 2 0 r10 with
                      | none => none
                      | some (ss, r11) =>
                        let fr := parseFracNanos r11
                        match parseOffset fr.2 with
                        | none => none
                        | some off =>
                          if 1 ≤ month ∧ month ≤ 12 ∧ 1 ≤ day ∧
                              day ≤ daysInMonth year month ∧
                              hh ≤ 23 ∧ mi ≤ 59 ∧ ss ≤ 59 then
                            let days := daysBeforeYear year + daysBeforeMonth year month + (day - 1)
                            let secsLocal : Int :=
                              (days : Int) * 86400 + hh * 3600 + mi * 60 + ss
                            some ((secsLocal - off) * 1000000000 + (fr.1 : Int))
                          else none

/-! ### Tracestate (model of otel trace.ParseTraceState / TraceState.Get).

A tracestate is a comma-separated list of key=value members; empty
members are skipped.  Keys trim leading spaces and tabs and must match the
W3C grammar (simple or tenant@system form); values trim trailing spaces
and tabs and are non-empty printable strings without comma or equals, not
ending in a space.  Duplicate keys and more than 32 members are
rejected. -/

def splitOnChar (sep : Char) : List Char → List (List Char)
  | [] => [[]]
  | c :: rest =>
    if c = sep then [] :: splitOnChar sep rest
    else
      match splitOnChar sep rest with
      | [] => [[c]]
      | g :: gs => (c :: g) :: gs

def cutChar (sep : Char) : List Char → Option (List Char × List Char)
  | [] => none
  | c :: rest =>
    if c = sep then some ([], rest)
    else
      match cutChar sep rest with
      | some p => some (c :: p.1, p.2)
      | none => none

def isLcAlpha (c : Char) : Bool :=
  'a' ≤ c && c ≤ 'z'

def isTraceStateKeyChar (c : Char) : Bool :=
  isLcAlpha c || isDigitChar c || c = '_' || c = '-' || c = '*' || c = '/'

def checkSimpleKey (cs : List Char) : Bool :=
  match cs with
  | [] => false
  | c :: rest => isLcAlpha c && rest.all isTraceStateKeyChar && cs.length ≤ 256

def checkTenantKey (tenant system : List Char) : Bool :=
  (match tenant with
   | [] => false
   | c :: rest => (isLcAlpha c || isDigitChar c) && rest.all isTraceStateKeyChar &&
       tenant.length ≤ 241) &&
  (match system with
   | [] => false
   | c :: rest => isLcAlpha c && rest.all isTraceStateKeyChar && system.length ≤ 14)

def checkTraceStateKey (cs : List Char) : Bool :=
  match cutChar '@' cs with
  | some p => checkTenantKey p.1 p.2
  | none => checkSimpleKey cs

def isTraceStateValueChar (c : Char) : Bool :=
  ' ' ≤ c && c ≤ '~' && c ≠ ',' && c ≠ '='

def checkTraceStateValue (cs : List Char) : Bool :=
  match cs.getLast? with
  | none => false
  | some last => cs.length ≤ 256 && cs.all isTraceStateValueChar && last ≠ ' '

def trimLeftWs (cs : List Char) : List Char :=
  cs.dropWhile (fun c => c = ' ' || c = '\t')

def trimRightWs (cs : List Char) : List Char :=
  (cs.reverse.dropWhile (fun c => c = ' ' || c = '\t')).reverse

def parseTraceStateMember (cs : List Char) : Option (String × String) :=
  match cutChar '=' cs with
  | none => none
  | some p =>
    let key := trimLeftWs p.1
    let val := trimRightWs p.2
    if checkTraceStateKey key && checkTraceStateValue val then
      some (String.mk key, String.mk val)
    else none

def buildTraceStateMembers : List (List Char) → List String → Option (List (String × String))
  | [], _ => some []
  | p :: ps, seen =>
    match parseTraceStateMember p with
    | none => none
    | some m =>
      if m.1 ∈ seen then none
      else
        match buildTraceStateMembers ps (m.1 :: seen) with
        | none => none
        | some rest => some (m :: rest)

def ParseTraceState (s : String) : Option (List (String × String)) :=
  if s = "" then some []
  else
    match buildTraceStateMembers ((splitOnChar ',' s.data).filter (fun p => !p.isEmpty)) [] with
    | none => none
    | some members => if members.length ≤ 32 then some members else none

def traceStateGet (members : List (String × String)) (key : String) : String :=
  match members.find? (fun m => m.1 == key) with
  | some m => m.2
  | none => ""

/-- Model of tracecontext.ExtractTimestampFromTraceState: look the key up
in the parsed tracestate and parse the value as RFC3339Nano; absent on any
failure. -/
def ExtractTimestampFromTraceState (raw key : String) : Option Int :=
  if raw = "" ∨ key = "" then none
  else
    match ParseTraceState raw with
    | none => none
    | some members =>
      let value := traceStateGet members key
      if value = "" then none
      else parseRFC3339 value

/-! ### Annotation extraction (pkg/tracecontext/tracecontext.go).

Annotation maps are association lists; a Go map read of a missing key
yields the empty string. -/

def annLookupD (annotations : List (String × String)) (key : String) : String :=
  match annotations.find? (fun a => a.1 == key) with
  | some a => a.2
  | none => ""

structure AnnotationExtractionConfig where
  traceParentKeys : List String
  traceStateKeys : List String
  legacyTraceIDKey : String
  legacySpanIDKey : String
  legacyTimestampKey : String
  traceStateTimestampKey : String
deriving DecidableEq

structure AnnotationTraceContext where
  traceParent : String
  traceState : String
  timestamp : Int
deriving DecidableEq

/-- Model of the firstAnnotationValue helper: the value of the first
non-empty key whose annotation value is non-empty. -/
def firstAnnotationValue (annotations : List (String × String)) : List String → String
  | [] => ""
  | key :: keys =>
    if key = "" then firstAnnotationValue annotations keys
    else
      let value := annLookupD annotations key
      if value ≠ "" then value
      else firstAnnotationValue annotations keys

/-- Model of tracecontext.ExtractTraceContextFromAnnotations.  The carrier
branch returns the first non-empty traceParent annotation value without
validating it; only the legacy branch validates identifiers (via
TraceParentFromIDs).  A timestamp that is absent or unparsable leaves the
zero time in the result. -/
def ExtractTraceContextFromAnnotations (annotations : List (String × String))
    (cfg : AnnotationExtractionConfig) : Option AnnotationTraceContext :=
  if annotations.length = 0 then none
  else
    let traceParent := firstAnnotationValue annotations cfg.traceParentKeys
    if traceParent ≠ "" then
      let traceState := firstAnnotationValue annotations cfg.traceStateKeys
      let timestamp : Int :=
        if cfg.traceStateTimestampKey ≠ "" then
          match ExtractTimestampFromTraceState traceState cfg.traceStateTimestampKey with
          | some ts => ts
          | none => 0
        else 0
      some ⟨traceParent, traceState, timestamp⟩
    else if cfg.legacyTraceIDKey = "" ∨ cfg.legacySpanIDKey = "" then none
    else
      let traceID := annLookupD annotations cfg.legacyTraceIDKey
      let spanID := annLookupD annotations cfg.legacySpanIDKey
      if traceID = "" ∨ spanID = "" then none
      else
        match TraceParentFromIDs traceID spanID with
        | none => none
        | some traceParent2 =>
          let timestamp : Int :=
            if cfg.legacyTimestampKey ≠ "" then
              let legacyTime := annLookupD annotations cfg.legacyTimestampKey
              if legacyTime ≠ "" then
                match parseRFC3339 legacyTime with
                | some t => t
                | none => 0
              else 0
            else 0
          some ⟨traceParent2, "", timestamp⟩

/-! ### Options and expiry (pkg/client/options.go, pkg/client/annotations.go).

Only the field read by traceContextExpired is modelled; the remaining
Options fields configure annotation key names that never influence this
function. -/

def DefaultTraceExpiration : Int := 20 * 60 * 1000000000

structure Options where
  TraceExpiration : Int
deriving DecidableEq

def Options.traceExpiration (o : Options) : Int :=
  if o.TraceExpiration ≤ 0 then DefaultTraceExpiration else o.TraceExpiration

/-- Model of client.traceContextExpired: the zero time is never expired;
otherwise expired when strictly more than the configured expiration has
elapsed.  time.Since ts is now - ts with now the current instant, passed
explicitly here. -/
def traceContextExpired (ts : Int) (now : Int) (opts : Options) : Bool :=
  if ts = 0 then false
  else decide (now - ts > opts.traceExpiration)

/-! ### Request types (pkg/types/request.go). -/

structure NamespacedName where
  nspace : String
  name : String
deriving DecidableEq

structure RequestParent where
  traceID : String
  spanID : String
  name : String
  kind : String
  eventKind : String
deriving DecidableEq

structure LinkedSpan where
  traceID : String
  spanID : String
deriving DecidableEq

/-- Model of types.RequestWithTraceID.  The Go LinkedSpans field is a
fixed [10]LinkedSpan array, modelled as a list whose length is 10 in every
reachable state (the zero value below); the count field selects the in-use
elements. -/
structure RequestWithTraceID where
  namespacedName : NamespacedName
  parent : RequestParent
  linkedSpans : List LinkedSpan
  linkedSpanCount : Nat
deriving DecidableEq

def emptyRequestParent : RequestParent := ⟨"", "", "", "", ""⟩

def emptyLinkedSpans : List LinkedSpan := List.replicate 10 ⟨"", ""⟩

/-- The Go zero value RequestWithTraceID with only the key set, as built
by the Get fallback branch. -/
def zeroRequestWithKey (k : NamespacedName) : RequestWithTraceID :=
  ⟨k, emptyRequestParent, emptyLinkedSpans, 0⟩

/-- Model of tracingqueue.appendLinkedSpan: skip an empty span, skip a
span structurally equal to one of the first linkedSpanCount entries (the
Go loop over the in-use portion of the array), and otherwise store it at
the count index when the array still has room. -/
def appendLinkedSpan (req : RequestWithTraceID) (span : LinkedSpan) : RequestWithTraceID :=
  if span.traceID.length = 0 ∧ span.spanID.length = 0 then req
  else if span ∈ req.linkedSpans.take req.linkedSpanCount then req
  else if req.linkedSpanCount < req.linkedSpans.length then
    { req with linkedSpans := req.linkedSpans.set req.linkedSpanCount span,
               linkedSpanCount := req.linkedSpanCount + 1 }
  else req

/-! ### Backing workqueue (model of the client-go typed workqueue).

The rate-limiting / delaying layers of the client-go queue route items
into the base queue (immediately, after a backoff, or after the requested
delay); only that base queue's dedup state machine is observable through
the tracing queue's claims, so AddAfter and AddRateLimited act on the base
queue here and the timing of the delayed insertion is not modelled.
Shutdown is likewise out of scope: a Get on an empty queue is the blocking
case and is modelled as none. -/

structure WorkQueue where
  queue : List NamespacedName
  dirty : List NamespacedName
  processing : List NamespacedName
deriving DecidableEq

def emptyWorkQueue : WorkQueue := ⟨[], [], []⟩

/-- client-go Add: nothing when already dirty; otherwise mark dirty and,
unless the item is being processed, push it onto the queue. -/
def wqAdd (q : WorkQueue) (item : NamespacedName) : WorkQueue :=
  if item ∈ q.dirty then q
  else
    let q1 := { q with dirty := item :: q.dirty }
    if item ∈ q1.processing then q1
    else { q1 with queue := q1.queue ++ [item] }

/-- client-go Get: pop the head, mark it processing, clear its dirty mark. -/
def wqGet (q : WorkQueue) : Option (NamespacedName × WorkQueue) :=
  match q.queue with
  | [] => none
  | item :: rest =>
    some (item,
      { queue := rest,
        dirty := q.dirty.filter (fun x => decide (x ≠ item)),
        processing := item :: q.processing })

/-- client-go Done: drop the processing mark and requeue the item when it
was marked dirty while being processed. -/
def wqDone (q : WorkQueue) (item : NamespacedName) : WorkQueue :=
  let q1 := { q with processing := q.processing.filter (fun x => decide (x ≠ item)) }
  if item ∈ q1.dirty then { q1 with queue := q1.queue ++ [item] }
  else q1

/-! ### The tracing queue (pkg/tracingqueue/tracingqueue.go, the
generation with the softDeleted map).  The two Go maps guarded by the
mutex are modelled as functions into Option; the claims below describe
single-threaded histories, which the mutex guarantees are the only
observable ones per operation. -/

def MapNN (β : Type) : Type := NamespacedName → Option β

def mapEmpty {β : Type} : MapNN β := fun _ => none

def mapInsert {β : Type} (m : MapNN β) (k : NamespacedName) (v : β) : MapNN β :=
  fun x => if x = k then some v else m x

def mapErase {β : Type} (m : MapNN β) (k : NamespacedName) : MapNN β :=
  fun x => if x = k then none else m x

structure TracingQueue where
  queue : WorkQueue
  m : MapNN RequestWithTraceID
  softDeleted : MapNN RequestWithTraceID

def NewTracingQueue : TracingQueue :=
  ⟨emptyWorkQueue, mapEmpty, mapEmpty⟩

/-- Model of TracingQueue.Add: merge into an existing entry (appending the
new parent as a linked span when the parent pair differs) and mark the key
dirty in the backing queue, or insert a fresh entry and enqueue the key. -/
def TracingQueue.Add (tq : TracingQueue) (req : RequestWithTraceID) : TracingQueue :=
  match tq.m req.namespacedName with
  | some existing =>
    let existing2 :=
      if existing.parent.traceID ≠ req.parent.traceID ∨
          existing.parent.spanID ≠ req.parent.spanID then
        appendLinkedSpan existing ⟨req.parent.traceID, req.parent.spanID⟩
      else existing
    { tq with m := mapInsert tq.m req.namespacedName existing2,
              queue := wqAdd tq.queue req.namespacedName }
  | none =>
    { tq with m := mapInsert tq.m req.namespacedName req,
              queue := wqAdd tq.queue req.namespacedName }

/-- Model of TracingQueue.AddAfter.  The Go body first copies the incoming
request (tval := req), then zeroes LinkedSpanCount, LinkedSpans and Parent
on the local parameter req, and stores the copy tval that was taken before
those writes, so the stored entry keeps the original parent and linked
spans; the zeroing writes are dead and therefore do not appear here.  When
an entry already exists nothing changes. -/
def TracingQueue.AddAfter (tq : TracingQueue) (req : RequestWithTraceID)
    (_duration : Int) : TracingQueue :=
  match tq.m req.namespacedName with
  | some _ => tq
  | none =>
    let tval := req
    { tq with m := mapInsert tq.m req.namespacedName tval,
              queue := wqAdd tq.queue req.namespacedName }

/-- Model of TracingQueue.AddRateLimited: identical merge semantics to
Add, routed through the backing queue's rate limiter (whose backoff timing
is not modelled). -/
def TracingQueue.AddRateLimited (tq : TracingQueue) (req : RequestWithTraceID) : TracingQueue :=
  match tq.m req.namespacedName with
  | some existing =>
    let existing2 :=
      if existing.parent.traceID ≠ req.parent.traceID ∨
          existing.parent.spanID ≠ req.parent.spanID then
        appendLinkedSpan existing ⟨req.parent.traceID, req.parent.spanID⟩
      else existing
    { tq with m := mapInsert tq.m req.namespacedName existing2,
              queue := wqAdd tq.queue req.namespacedName }
  | none =>
    { tq with m := mapInsert tq.m req.namespacedName req,
              queue := wqAdd tq.queue req.namespacedName }

/-- Model of TracingQueue.Get: take the next key from the backing queue,
then return the entry from the primary map, falling back to the
softDeleted map and finally to a zero-value request carrying only the key.
Neither map is modified. -/
def TracingQueue.Get (tq : TracingQueue) : Option (RequestWithTraceID × TracingQueue) :=
  match wqGet tq.queue with
  | none => none
  | some (key, wq2) =>
    let tq2 := { tq with queue := wq2 }
    match tq.m key with
    | some v => some (v, tq2)
    | none =>
      match tq.softDeleted key with
      | some v => some (v, tq2)
      | none => some (zeroRequestWithKey key, tq2)

/-- Model of TracingQueue.Done: notify the backing queue, then move the
primary-map entry for the key into the softDeleted map (where nothing
except ShutDownWithDrain ever removes it). -/
def TracingQueue.Done (tq : TracingQueue) (req : RequestWithTraceID) : TracingQueue :=
  let wq2 := wqDone tq.queue req.namespacedName
  match tq.m req.namespacedName with
  | some v =>
    { queue := wq2,
      m := mapErase tq.m req.namespacedName,
      softDeleted := mapInsert tq.softDeleted req.namespacedName v }
  | none => { tq with queue := wq2 }

/-! ### Span-start helper (pkg/client/span_helpers.go, the generation
taking a [10]LinkedSpan argument) and the condition accessors
(pkg/client/conditions.go).

The Kubernetes object is modelled by the two features the helper reads:
the reflective condition list (conditionsOk mirrors whether
getConditionsAsMap succeeds; condition records are assumed well-formed,
carrying Type, Message and LastTransitionTime fields) and the annotation
map. -/

structure ObjectCondition where
  condType : String
  message : String
  lastTransitionTime : Int
deriving DecidableEq

structure K8sObject where
  conditionsOk : Bool
  conditions : List ObjectCondition
  annotations : List (String × String)
deriving DecidableEq

/-- Model of client.getConditionMessage: error (none) when the reflective
conditions access fails or no condition of the type exists; otherwise the
message of the first matching condition. -/
def getConditionMessage (conditionType : String) (obj : K8sObject) : Option String :=
  if obj.conditionsOk then
    match obj.conditions.find? (fun c => c.condType == conditionType) with
    | some c => some c.message
    | none => none
  else none

/-- Model of client.getConditionTime, analogous to getConditionMessage. -/
def getConditionTime (conditionType : String) (obj : K8sObject) : Option Int :=
  if obj.conditionsOk then
    match obj.conditions.find? (fun c => c.condType == conditionType) with
    | some c => some c.lastTransitionTime
    | none => none
  else none

/-- Go map read with presence flag. -/
def annLookup? (annotations : List (String × String)) (key : String) : Option String :=
  match annotations.find? (fun a => a.1 == key) with
  | some a => some a.2
  | none => none

def traceIDAnnotationKey : String := "operatortrace.azure.microsoft.com/trace-id"

def spanIDAnnotationKey : String := "operatortrace.azure.microsoft.com/span-id"

def traceIDTimeAnnotationKey : String := "operatortrace.azure.microsoft.com/trace-id-time"

/-- constants.TraceExpirationTime (20) times time.Minute, in nanoseconds. -/
def TraceExpirationNanos : Int := 20 * 60 * 1000000000

def emptySpanContext : SpanContext :=
  ⟨zeroTraceIDBytes, zeroSpanIDBytes, 0, false⟩

/-- The remote span context built by the condition branch of
startSpanFromContext once a non-empty TraceID condition message and a
fresh LastTransitionTime are in hand: parse the trace id, then attach the
SpanID condition when it parses (an unreadable SpanID condition leaves the
empty context, an unparsable one leaves a zero span id). -/
def conditionRemoteContext (obj : K8sObject) (traceID : String) (now : Int) : Option SpanContext :=
  if traceID ≠ "" then
    match getConditionTime "TraceID" obj with
    | some t =>
      if t < now - TraceExpirationNanos then none
      else
        match TraceIDFromHex traceID with
        | some tid =>
          let sc :=
            match getConditionMessage "SpanID" obj with
            | some spanID =>
              match SpanIDFromHex spanID with
              | some sid => SpanContext.mk tid sid 1 true
              | none => SpanContext.mk tid zeroSpanIDBytes 1 true
            | none => emptySpanContext
          some sc
        | none => none
    | none => none
  else none

/-- The remote span context built by the annotation branch of
startSpanFromContext (legacy flat trace-id / span-id / trace-id-time
annotation keys): requires the trace-id annotation to be present and
non-empty, the trace-id-time annotation to be present and RFC3339
parsable, and the timestamp to be fresh, then parses the identifiers the
same way the condition branch does. -/
def annotationRemoteContext (obj : K8sObject) (now : Int) : Option SpanContext :=
  match annLookup? obj.annotations traceIDAnnotationKey with
  | none => none
  | some traceID =>
    if traceID ≠ "" then
      match annLookup? obj.annotations traceIDTimeAnnotationKey with
      | none => none
      | some timeStr =>
        match parseRFC3339 timeStr with
        | none => none
        | some t =>
          if t < now - TraceExpirationNanos then none
          else
            match TraceIDFromHex traceID with
            | some tid =>
              let sc :=
                match annLookup? obj.annotations spanIDAnnotationKey with
                | some spanID =>
                  match SpanIDFromHex spanID with
                  | some sid => SpanContext.mk tid sid 1 true
                  | none => SpanContext.mk tid zeroSpanIDBytes 1 true
                | none => emptySpanContext
              some sc
            | none => none
    else none

/-- The remote span context startSpanFromContext installs into the call
context when the live context is invalid: the condition side channel is
consulted first, and the annotation branch runs only when the condition
lookup returns an error. -/
def startSpanRemoteContext (obj : Option K8sObject) (now : Int) : Option SpanContext :=
  match obj with
  | none => none
  | some o =>
    match getConditionMessage "TraceID" o with
    | some traceID => conditionRemoteContext o traceID now
    | none => annotationRemoteContext o now

/-- The parent a span started by startSpanFromContext receives. -/
inductive SpanAnchor where
  | liveParent : SpanContext → SpanAnchor
  | remoteParent : SpanContext → SpanAnchor
  | root : SpanAnchor
deriving DecidableEq

/-- Model of client.startSpanFromContext restricted to the anchor
decision: a valid live context wins outright; otherwise the remote context
recovered from the object (conditions first, annotations on condition
error) becomes the remote parent when valid, and the span is a root
otherwise (the tracer treats an invalid remote context as no parent).
Link attachment (sliceFromLinkedSpans) does not affect the anchor and is
not modelled. -/
def startSpanFromContext (live : SpanContext) (obj : Option K8sObject)
    (now : Int) : SpanAnchor :=
  if live.isValid then .liveParent live
  else
    match startSpanRemoteContext obj now with
    | some rc => if rc.isValid then .remoteParent rc else .root
    | none => .root

/-! ### Concrete fixtures used by witnesses and counterexamples. -/

def exampleKey : NamespacedName := ⟨"default", "sample1"⟩

def exampleParentOld : RequestParent := ⟨"trace-old", "span-old", "sample1", "Sample", "Update"⟩

def exampleParentNew : RequestParent := ⟨"trace-new", "span-new", "sample1", "Sample", "Update"⟩

def exampleParentThird : RequestParent := ⟨"trace-3", "span-3", "sample1", "Sample", "Update"⟩

def exampleRequest (p : RequestParent) : RequestWithTraceID :=
  ⟨exampleKey, p, emptyLinkedSpans, 0⟩

/-- A request that already carries a parent and one linked span, used to
exhibit what AddAfter actually stores. -/
def exampleLinkedRequest : RequestWithTraceID :=
  ⟨exampleKey, ⟨"trace-1", "span-1", "sample1", "Sample", "Update"⟩,
    ⟨"trace-l", "span-l"⟩ :: List.replicate 9 ⟨"", ""⟩, 1⟩

/-- A request whose ten linked-span slots are all occupied by distinct
spans. -/
def exampleFullRequest : RequestWithTraceID :=
  ⟨exampleKey, exampleParentOld,
    [⟨"t1", "s1"⟩, ⟨"t2", "s2"⟩, ⟨"t3", "s3"⟩, ⟨"t4", "s4"⟩, ⟨"t5", "s5"⟩,
     ⟨"t6", "s6"⟩, ⟨"t7", "s7"⟩, ⟨"t8", "s8"⟩, ⟨"t9", "s9"⟩, ⟨"t10", "s10"⟩], 10⟩

def exampleTraceIDHex : String := "0102030405060708090a0b0c0d0e0f10"

def exampleSpanIDHex : String := "0102030405060708"

def exampleTraceParent : String :=
  "00-0102030405060708090a0b0c0d0e0f10-0102030405060708-01"

def allZeroTraceIDHex : String := String.mk (List.replicate 32 '0')

def allZeroSpanIDHex : String := String.mk (List.replicate 16 '0')

def exampleExtractionConfig : AnnotationExtractionConfig :=
  ⟨["incoming/traceparent", "operatortrace.azure.microsoft.com/traceparent"],
   ["incoming/tracestate", "operatortrace.azure.microsoft.com/tracestate"],
   "operatortrace.azure.microsoft.com/trace-id",
   "operatortrace.azure.microsoft.com/span-id",
   "operatortrace.azure.microsoft.com/trace-id-time",
   "operatortrace_ts"⟩

/-- Annotations whose first (incoming) carrier candidate holds an
unparsable value while the second (emitted) candidate holds a valid
traceparent. -/
def exampleShadowedAnnotations : List (String × String) :=
  [("incoming/traceparent", "not-a-traceparent"),
   ("operatortrace.azure.microsoft.com/traceparent", exampleTraceParent)]

/-- Legacy-only annotations (flat trace id and span id). -/
def exampleLegacyAnnotations : List (String × String) :=
  [("operatortrace.azure.microsoft.com/trace-id", exampleTraceIDHex),
   ("operatortrace.azure.microsoft.com/span-id", exampleSpanIDHex)]

/-- An object carrying a fresh trace context in its TraceID / SpanID
conditions and a different, equally fresh and valid context in its legacy
annotations. -/
def exampleAnchorObject : K8sObject :=
  ⟨true,
   [⟨"TraceID", "aaaaaaaaaaaaaaaaaaaaaaaaaaaaaaaa", 0⟩,
    ⟨"SpanID", "bbbbbbbbbbbbbbbb", 0⟩],
   [(traceIDAnnotationKey, "cccccccccccccccccccccccccccccccc"),
    (spanIDAnnotationKey, "dddddddddddddddd"),
    (traceIDTimeAnnotationKey, "0001-01-01T00:00:00Z")]⟩

/-- The same object without any conditions, so the condition lookup fails
and the annotation branch runs. -/
def exampleAnnotationOnlyObject : K8sObject :=
  ⟨true, [],
   [(traceIDAnnotationKey, "cccccccccccccccccccccccccccccccc"),
    (spanIDAnnotationKey, "dddddddddddddddd"),
    (traceIDTimeAnnotationKey, "0001-01-01T00:00:00Z")]⟩

/-- A valid non-zero live span context. -/
def exampleLiveContext : SpanContext :=
  ⟨List.replicate 16 1, List.replicate 8 1, 1, false⟩

/-! ### Helper lemmas. -/

theorem hexDigitVal_spec (c : Char) (v : Nat) (h : hexDigitVal c = some v) :
    v < 16 ∧ hexDigitChar v = c ∧ hexDigitValAny c = some v ∧ c ≠ '-' := by
  by_cases h0 : c = '0'
  · subst h0; rw [show hexDigitVal '0' = some 0 from rfl] at h
    injection h with hv; subst hv; decide
  by_cases h1 : c = '1'
  · subst h1; rw [show hexDigitVal '1' = some 1 from rfl] at h
    injection h with hv; subst hv; decide
  by_cases h2 : c = '2'
  · subst h2; rw [show hexDigitVal '2' = some 2 from rfl] at h
    injection h with hv; subst hv; decide
  by_cases h3 : c = '3'
  · subst h3; rw [show hexDigitVal '3' = some 3 from rfl] at h
    injection h with hv; subst hv; decide
  by_cases h4 : c = '4'
  · subst h4; rw [show hexDigitVal '4' = some 4 from rfl] at h
    injection h with hv; subst hv; decide
  by_cases h5 : c = '5'
  · subst h5; rw [show hexDigitVal '5' = some 5 from rfl] at h
    injection h with hv; subst hv; decide
  by_cases h6 : c = '6'
  · subst h6; rw [show hexDigitVal '6' = some 6 from rfl] at h
    injection h with hv; subst hv; decide
  by_cases h7 : c = '7'
  · subst h7; rw [show hexDigitVal '7' = some 7 from rfl] at h
    injection h with hv; subst hv; decide
  by_cases h8 : c = '8'
  · subst h8; rw [show hexDigitVal '8' = some 8 from rfl] at h
    injection h with hv; subst hv; decide
  by_cases h9 : c = '9'
  · subst h9; rw [show hexDigitVal '9' = some 9 from rfl] at h
    injection h with hv; subst hv; decide
  by_cases ha : c = 'a'
  · subst ha; rw [show hexDigitVal 'a' = some 10 from rfl] at h
    injection h with hv; subst hv; decide
  by_cases hb : c = 'b'
  · subst hb; rw [show hexDigitVal 'b' = some 11 from rfl] at h
    injection h with hv; subst hv; decide
  by_cases hc : c = 'c'
  · subst hc; rw [show hexDigitVal 'c' = some 12 from rfl] at h
    injection h with hv; subst hv; decide
  by_cases hd : c = 'd'
  · subst hd; rw [show hexDigitVal 'd' = some 13 from rfl] at h
    injection h with hv; subst hv; decide
  by_cases he : c = 'e'
  · subst he; rw [show hexDigitVal 'e' = some 14 from rfl] at h
    injection h with hv; subst hv; decide
  by_cases hf : c = 'f'
  · subst hf; rw [show hexDigitVal 'f' = some 15 from rfl] at h
    injection h with hv; subst hv; decide
  rw [hexDigitVal] at h
  simp only [if_neg h0, if_neg h1, if_neg h2, if_neg h3, if_neg h4, if_neg h5,
    if_neg h6, if_neg h7, if_neg h8, if_neg h9, if_neg ha, if_neg hb, if_neg hc,
    if_neg hd, if_neg he, if_neg hf] at h
  exact Option.noConfusion h

theorem decodeHexBytes_encode :
    ∀ (cs : List Char) (bs : List Nat), decodeHexBytes cs = some bs → encodeHexList bs = cs
  | [], bs, h => by
    rw [decodeHexBytes] at h
    injection h with h2
    rw [← h2]
    rfl
  | [c], bs, h => by
    simp [decodeHexBytes] at h
  | c1 :: c2 :: rest, bs, h => by
    rw [decodeHexBytes] at h
    cases h1 : hexDigitVal c1 with
    | none => rw [h1] at h; simp at h
    | some hv =>
      cases h2 : hexDigitVal c2 with
      | none => rw [h1, h2] at h; simp at h
      | some lv =>
        cases h3 : decodeHexBytes rest with
        | none => rw [h1, h2, h3] at h; simp at h
        | some bs2 =>
          rw [h1, h2, h3] at h
          simp only [Option.some.injEq] at h
          subst h
          obtain ⟨hlt1, henc1, -, -⟩ := hexDigitVal_spec c1 hv h1
          obtain ⟨hlt2, henc2, -, -⟩ := hexDigitVal_spec c2 lv h2
          have ih := decodeHexBytes_encode rest bs2 h3
          have ediv : (16 * hv + lv) / 16 = hv := by omega
          have emod : (16 * hv + lv) % 16 = lv := by omega
          simp [encodeHexList, ediv, emod, henc1, henc2, ih]

theorem decodeHexBytes_any :
    ∀ (cs : List Char) (bs : List Nat),
      decodeHexBytes cs = some bs → decodeHexBytesAny cs = some bs
  | [], bs, h => by
    rw [decodeHexBytes] at h
    rw [decodeHexBytesAny]
    exact h
  | [c], bs, h => by simp [decodeHexBytes] at h
  | c1 :: c2 :: rest, bs, h => by
    rw [decodeHexBytes] at h
    cases h1 : hexDigitVal c1 with
    | none => rw [h1] at h; simp at h
    | some hv =>
      cases h2 : hexDigitVal c2 with
      | none => rw [h1, h2] at h; simp at h
      | some lv =>
        cases h3 : decodeHexBytes rest with
        | none => rw [h1, h2, h3] at h; simp at h
        | some bs2 =>
          rw [h1, h2, h3] at h
          simp only [Option.some.injEq] at h
          subst h
          obtain ⟨-, -, hany1, -⟩ := hexDigitVal_spec c1 hv h1
          obtain ⟨-, -, hany2, -⟩ := hexDigitVal_spec c2 lv h2
          have ih := decodeHexBytes_any rest bs2 h3
          rw [decodeHexBytesAny, hany1, hany2, ih]

theorem decodeHexBytes_no_dash :
    ∀ (cs : List Char) (bs : List Nat),
      decodeHexBytes cs = some bs → ∀ c ∈ cs, c ≠ '-'
  | [], _, _ => by simp
  | [c], bs, h => by simp [decodeHexBytes] at h
  | c1 :: c2 :: rest, bs, h => by
    rw [decodeHexBytes] at h
    cases h1 : hexDigitVal c1 with
    | none => rw [h1] at h; simp at h
    | some hv =>
      cases h2 : hexDigitVal c2 with
      | none => rw [h1, h2] at h; simp at h
      | some lv =>
        cases h3 : decodeHexBytes rest with
        | none => rw [h1, h2, h3] at h; simp at h
        | some bs2 =>
          obtain ⟨-, -, -, hd1⟩ := hexDigitVal_spec c1 hv h1
          obtain ⟨-, -, -, hd2⟩ := hexDigitVal_spec c2 lv h2
          have ih := decodeHexBytes_no_dash rest bs2 h3
          intro c hc
          rcases hc with _ | ⟨_, hc⟩
          · exact hd1
          · rcases hc with _ | ⟨_, hc⟩
            · exact hd2
            · exact ih c (by assumption)

theorem cutDash_append (xs ys : List Char) (h : ∀ c ∈ xs, c ≠ '-') :
    cutDash (xs ++ '-' :: ys) = (xs, ys) := by
  induction xs with
  | nil => simp [cutDash]
  | cons c rest ih =>
    have hc : c ≠ '-' := h c (by simp)
    have ih2 := ih (fun d hd => h d (by simp [hd]))
    simp [cutDash, hc, ih2]

theorem cutDash_no_dash (xs : List Char) (h : ∀ c ∈ xs, c ≠ '-') :
    cutDash xs = (xs, []) := by
  induction xs with
  | nil => rfl
  | cons c rest ih =>
    have hc : c ≠ '-' := h c (by simp)
    have ih2 := ih (fun d hd => h d (by simp [hd]))
    simp [cutDash, hc, ih2]

theorem string_mk_data (s : String) : String.mk s.data = s := by
  cases s; rfl

theorem string_data_append (a b : String) : (a ++ b).data = a.data ++ b.data := by
  cases a; cases b; rfl

theorem string_length_data (s : String) : s.length = s.data.length := rfl

theorem string_eq_empty_iff (s : String) : s = "" ↔ s.data = [] := by
  constructor
  · rintro rfl; rfl
  · intro h; cases s; subst h; rfl

theorem appendLinkedSpan_preserves (req : RequestWithTraceID) (span : LinkedSpan)
    (hlen : req.linkedSpans.length = 10) (hcnt : req.linkedSpanCount ≤ 10) :
    (appendLinkedSpan req span).linkedSpans.length = 10 ∧
      (appendLinkedSpan req span).linkedSpanCount ≤ 10 := by
  unfold appendLinkedSpan
  split
  · exact ⟨hlen, hcnt⟩
  · split
    · exact ⟨hlen, hcnt⟩
    · split
      · rename_i hlt
        refine ⟨?_, ?_⟩
        · show (req.linkedSpans.set req.linkedSpanCount span).length = 10
          rw [List.length_set]
          exact hlen
        · show req.linkedSpanCount + 1 ≤ 10
          omega
      · exact ⟨hlen, hcnt⟩

/-- Claim C9 counterexample: with a configured expiration of 60
nanoseconds and the clock at 61 nanoseconds after Go's zero time, the
timestamp one nanosecond older than the boundary now - d is exactly the
zero time, and traceContextExpired reports it as not expired, contradicting
the claim that a timestamp one nanosecond older than now - d is always
treated as expired. -/
theorem c9_counterexample :
    (61 : Int) - (Options.mk 60).traceExpiration - 1 = 0 ∧
    traceContextExpired ((61 : Int) - (Options.mk 60).traceExpiration - 1) 61
      (Options.mk 60) = false := by
  decide

/-- Claim C9 (amended): for every timestamp and configured expiration, a
context timestamped exactly at now - expiration is not expired, and a
timestamp one nanosecond older is expired unless that timestamp is exactly
the zero time value, which traceContextExpired always treats as fresh; the
function reports expiry only as a boolean, never as an error. -/
theorem c9_expiration_boundary (now : Int) (opts : Options) :
    traceContextExpired (now - opts.traceExpiration) now opts = false ∧
    (now - opts.traceExpiration - 1 ≠ 0 →
      traceContextExpired (now - opts.traceExpiration - 1) now opts = true) := by
  constructor
  · unfold traceContextExpired
    split
    · rfl
    · rw [decide_eq_false_iff_not]
      omega
  · intro hne
    unfold traceContextExpired
    rw [if_neg hne, decide_eq_true_eq]
    omega

theorem c9_expiration_boundary_witness :
    traceContextExpired ((100 : Int) - (Options.mk 60).traceExpiration) 100
      (Options.mk 60) = false ∧
    traceContextExpired ((100 : Int) - (Options.mk 60).traceExpiration - 1) 100
      (Options.mk 60) = true :=
  ⟨(c9_expiration_boundary 100 (Options.mk 60)).1,
   (c9_expiration_boundary 100 (Options.mk 60)).2 (by decide)⟩

/-- Claim C10: traceContextExpired returns false for the zero time under
every Options value, and an extracted annotation context whose timestamp
could not be parsed carries the zero time, so it is treated as fresh
forever regardless of the configured expiration. -/
theorem c10_zero_time_never_expired :
    (∀ (now : Int) (opts : Options), traceContextExpired 0 now opts = false) ∧
    (∀ (ann : List (String × String)) (cfg : AnnotationExtractionConfig)
        (ctx : AnnotationTraceContext),
        ExtractTraceContextFromAnnotations ann cfg = some ctx →
        ExtractTimestampFromTraceState ctx.traceState cfg.traceStateTimestampKey = none →
        parseRFC3339 (annLookupD ann cfg.legacyTimestampKey) = none →
        ctx.timestamp = 0 ∧
          ∀ (now : Int) (opts : Options),
            traceContextExpired ctx.timestamp now opts = false) := by
  constructor
  · intro now opts; rfl
  · intro ann cfg ctx hext hstate hlegacy
    have hts : ctx.timestamp = 0 := by
      simp only [ExtractTraceContextFromAnnotations] at hext
      by_cases hlen : ann.length = 0
      · rw [if_pos hlen] at hext
        exact Option.noConfusion hext
      rw [if_neg hlen] at hext
      by_cases hfv : firstAnnotationValue ann cfg.traceParentKeys ≠ ""
      · rw [if_pos hfv] at hext
        injection hext with he
        subst he
        simp only at hstate ⊢
        rw [hstate]
        split
        · rfl
        · rfl
      · rw [if_neg hfv] at hext
        by_cases hleg : cfg.legacyTraceIDKey = "" ∨ cfg.legacySpanIDKey = ""
        · rw [if_pos hleg] at hext
          exact Option.noConfusion hext
        rw [if_neg hleg] at hext
        by_cases hids : annLookupD ann cfg.legacyTraceIDKey = "" ∨
            annLookupD ann cfg.legacySpanIDKey = ""
        · rw [if_pos hids] at hext
          exact Option.noConfusion hext
        rw [if_neg hids] at hext
        cases htp : TraceParentFromIDs (annLookupD ann cfg.legacyTraceIDKey)
            (annLookupD ann cfg.legacySpanIDKey) with
        | none =>
          rw [htp] at hext
          exact Option.noConfusion hext
        | some tp =>
          rw [htp] at hext
          injection hext with he
          subst he
          simp only
          split
          · split
            · rw [hlegacy]
            · rfl
          · rfl
    refine ⟨hts, fun now opts => ?_⟩
    rw [hts]
    rfl

theorem c10_zero_time_witness :
    traceContextExpired (AnnotationTraceContext.timestamp ⟨"v", "", 0⟩) 5
      (Options.mk 60) = false :=
  ((c10_zero_time_never_expired.2 [("k", "v")] ⟨["k"], [], "", "", "", ""⟩
      ⟨"v", "", 0⟩ (by decide) (by decide) (by decide)).2 5 (Options.mk 60))

/-- Claim C2 (code bug): AddAfter on a fresh key stores the incoming unit
unchanged: the stored entry keeps its non-empty parent, its linked-span
count of 1 and its recorded linked span, because the Go code copies the
request before executing the zeroing writes and stores the pre-reset
copy. -/
theorem c2_addafter_stores_unreset_unit :
    (TracingQueue.AddAfter NewTracingQueue exampleLinkedRequest 5).m exampleKey =
      some exampleLinkedRequest ∧
    exampleLinkedRequest.parent ≠ emptyRequestParent ∧
    exampleLinkedRequest.linkedSpanCount = 1 ∧
    exampleLinkedRequest.linkedSpans.headD ⟨"", ""⟩ = ⟨"trace-l", "span-l"⟩ := by
  refine ⟨?_, by decide, by decide, by decide⟩
  rfl

/-- Claim C4: over any sequence of appendLinkedSpan calls starting from a
request with at most ten recorded spans, the count never exceeds ten;
appending a span structurally equal to an already recorded one leaves the
request unchanged; and once ten spans are recorded, any further span is
silently dropped, leaving the request unchanged. -/
theorem c4_linked_span_bounds :
    (∀ (req : RequestWithTraceID) (spans : List LinkedSpan),
        req.linkedSpans.length = 10 → req.linkedSpanCount ≤ 10 →
        (spans.foldl appendLinkedSpan req).linkedSpanCount ≤ 10) ∧
    (∀ (req : RequestWithTraceID) (span : LinkedSpan),
        span ∈ req.linkedSpans.take req.linkedSpanCount →
        appendLinkedSpan req span = req) ∧
    (∀ (req : RequestWithTraceID) (span : LinkedSpan),
        req.linkedSpans.length = 10 → req.linkedSpanCount = 10 →
        appendLinkedSpan req span = req) := by
  refine ⟨?_, ?_, ?_⟩
  · intro req spans
    induction spans generalizing req with
    | nil =>
      intro _ h2
      simpa using h2
    | cons s rest ih =>
      intro h1 h2
      have hp := appendLinkedSpan_preserves req s h1 h2
      simpa [List.foldl_cons] using ih (appendLinkedSpan req s) hp.1 hp.2
  · intro req span hmem
    unfold appendLinkedSpan
    by_cases hemp : span.traceID.length = 0 ∧ span.spanID.length = 0
    · rw [if_pos hemp]
    · rw [if_neg hemp, if_pos hmem]
  · intro req span hlen hcnt
    unfold appendLinkedSpan
    split
    · rfl
    · split
      · rfl
      · split
        · rename_i hlt
          rw [hcnt, hlen] at hlt
          exact absurd hlt (by omega)
        · rfl

theorem c4_linked_span_bounds_witness :
    ((List.replicate 11 (LinkedSpan.mk "x" "y")).foldl appendLinkedSpan
        (exampleRequest exampleParentOld)).linkedSpanCount ≤ 10 ∧
    appendLinkedSpan exampleFullRequest ⟨"t1", "s1"⟩ = exampleFullRequest ∧
    appendLinkedSpan exampleFullRequest ⟨"x", "y"⟩ = exampleFullRequest :=
  ⟨c4_linked_span_bounds.1 (exampleRequest exampleParentOld)
      (List.replicate 11 ⟨"x", "y"⟩) (by decide) (by decide),
   c4_linked_span_bounds.2.1 exampleFullRequest ⟨"t1", "s1"⟩ (by decide),
   c4_linked_span_bounds.2.2 exampleFullRequest ⟨"x", "y"⟩ (by decide) (by decide)⟩

/-- Claim C3 counterexample: after Add and Get, the key is still present
in the primary map (the claim says Get removes it), and after Done the
unit sits in the recently-completed map (the claim says Done evicts it, so
that the key would be in neither map). -/
theorem c3_counterexample :
    ((TracingQueue.Get (TracingQueue.Add NewTracingQueue
        (exampleRequest exampleParentOld))).map
      (fun p => (p.1, p.2.m exampleKey,
        (TracingQueue.Done p.2 p.1).softDeleted exampleKey))) =
    some (exampleRequest exampleParentOld,
      some (exampleRequest exampleParentOld),
      some (exampleRequest exampleParentOld)) := by
  rfl

/-- Claim C3 (amended): Get returns the unit without touching either map;
relocation happens in Done, which evicts the key from the primary map and
moves its unit into the recently-completed (softDeleted) map, where it
stays (only ShutDownWithDrain clears that map); entries for other keys are
unaffected. -/
theorem c3_get_done_lifecycle :
    (∀ (tq : TracingQueue) (got : RequestWithTraceID) (tq2 : TracingQueue),
        TracingQueue.Get tq = some (got, tq2) →
        tq2.m = tq.m ∧ tq2.softDeleted = tq.softDeleted) ∧
    (∀ (tq : TracingQueue) (req : RequestWithTraceID),
        (TracingQueue.Done tq req).m req.namespacedName = none ∧
        (∀ v, tq.m req.namespacedName = some v →
          (TracingQueue.Done tq req).softDeleted req.namespacedName = some v) ∧
        (∀ k, k ≠ req.namespacedName →
          (TracingQueue.Done tq req).m k = tq.m k ∧
          (TracingQueue.Done tq req).softDeleted k = tq.softDeleted k)) := by
  constructor
  · intro tq got tq2 h
    unfold TracingQueue.Get at h
    cases hwq : wqGet tq.queue with
    | none =>
      rw [hwq] at h
      exact Option.noConfusion h
    | some p =>
      obtain ⟨k, wq2⟩ := p
      rw [hwq] at h
      simp only at h
      cases hm : tq.m k with
      | some v =>
        rw [hm] at h
        injection h with h2
        have hsnd := congrArg Prod.snd h2
        simp only at hsnd
        rw [← hsnd]
        exact ⟨rfl, rfl⟩
      | none =>
        rw [hm] at h
        cases hs : tq.softDeleted k with
        | some v =>
          rw [hs] at h
          injection h with h2
          have hsnd := congrArg Prod.snd h2
          simp only at hsnd
          rw [← hsnd]
          exact ⟨rfl, rfl⟩
        | none =>
          rw [hs] at h
          injection h with h2
          have hsnd := congrArg Prod.snd h2
          simp only at hsnd
          rw [← hsnd]
          exact ⟨rfl, rfl⟩
  · intro tq req
    refine ⟨?_, ?_, ?_⟩
    · cases hm : tq.m req.namespacedName with
      | none =>
        unfold TracingQueue.Done
        rw [hm]
        exact hm
      | some v =>
        unfold TracingQueue.Done
        rw [hm]
        show mapErase tq.m req.namespacedName req.namespacedName = none
        unfold mapErase
        rw [if_pos rfl]
    · intro v hv
      unfold TracingQueue.Done
      rw [hv]
      show mapInsert tq.softDeleted req.namespacedName v req.namespacedName = some v
      unfold mapInsert
      rw [if_pos rfl]
    · intro k hk
      cases hm : tq.m req.namespacedName with
      | none =>
        unfold TracingQueue.Done
        rw [hm]
        exact ⟨rfl, rfl⟩
      | some v =>
        unfold TracingQueue.Done
        rw [hm]
        constructor
        · show mapErase tq.m req.namespacedName k = tq.m k
          unfold mapErase
          rw [if_neg hk]
        · show mapInsert tq.softDeleted req.namespacedName v k = tq.softDeleted k
          unfold mapInsert
          rw [if_neg hk]

theorem c3_get_done_lifecycle_witness :
    ((⟨⟨[], [], [exampleKey]⟩,
        (TracingQueue.Add NewTracingQueue (exampleRequest exampleParentOld)).m,
        (TracingQueue.Add NewTracingQueue (exampleRequest exampleParentOld)).softDeleted⟩ :
      TracingQueue).m =
      (TracingQueue.Add NewTracingQueue (exampleRequest exampleParentOld)).m) ∧
    (TracingQueue.Done (TracingQueue.Add NewTracingQueue (exampleRequest exampleParentOld))
        (exampleRequest exampleParentOld)).m exampleKey = none ∧
    (TracingQueue.Done (TracingQueue.Add NewTracingQueue (exampleRequest exampleParentOld))
        (exampleRequest exampleParentOld)).softDeleted exampleKey =
      some (exampleRequest exampleParentOld) :=
  ⟨(c3_get_done_lifecycle.1
      (TracingQueue.Add NewTracingQueue (exampleRequest exampleParentOld))
      (exampleRequest exampleParentOld)
      ⟨⟨[], [], [exampleKey]⟩,
        (TracingQueue.Add NewTracingQueue (exampleRequest exampleParentOld)).m,
        (TracingQueue.Add NewTracingQueue (exampleRequest exampleParentOld)).softDeleted⟩
      (by rfl)).1,
   (c3_get_done_lifecycle.2
      (TracingQueue.Add NewTracingQueue (exampleRequest exampleParentOld))
      (exampleRequest exampleParentOld)).1,
   (c3_get_done_lifecycle.2
      (TracingQueue.Add NewTracingQueue (exampleRequest exampleParentOld))
      (exampleRequest exampleParentOld)).2.1 (exampleRequest exampleParentOld) (by rfl)⟩

theorem decodeHexBytesAny_zeros :
    ∀ (cs : List Char) (bs : List Nat),
      decodeHexBytesAny cs = some bs → (∀ c ∈ cs, c = '0') →
      bs.all (fun b => b == 0) = true
  | [], bs, h, _ => by
    rw [decodeHexBytesAny] at h
    injection h with h2
    rw [← h2]
    rfl
  | [c], bs, h, _ => by simp [decodeHexBytesAny] at h
  | c1 :: c2 :: rest, bs, h, hz => by
    have hz1 : c1 = '0' := hz c1 (by simp)
    have hz2 : c2 = '0' := hz c2 (by simp)
    subst hz1; subst hz2
    rw [decodeHexBytesAny, show hexDigitValAny '0' = some 0 from rfl] at h
    cases h3 : decodeHexBytesAny rest with
    | none => rw [h3] at h; simp at h
    | some bs2 =>
      rw [h3] at h
      simp only [Option.some.injEq] at h
      subst h
      have ih := decodeHexBytesAny_zeros rest bs2 h3 (fun c hc => hz c (by simp [hc]))
      simp [List.all_cons, ih]

theorem w3cExtract_canonical (tcs scs : List Char)
    (htl : tcs.length = 32) (hsl : scs.length = 16)
    (htd : ∀ c ∈ tcs, c ≠ '-') (hsd : ∀ c ∈ scs, c ≠ '-') :
    w3cExtractSpanContext ('0' :: '0' :: '-' :: (tcs ++ '-' :: (scs ++ ['-', '0', '1']))) =
      (match decodeHexBytesAny tcs, decodeHexBytesAny scs with
       | some tb, some sb =>
         if tb.all (fun b => b == 0) || sb.all (fun b => b == 0) then none
         else some ⟨tb, sb, 1, true⟩
       | _, _ => none) := by
  have e1 : cutDash ('0' :: '0' :: '-' :: (tcs ++ '-' :: (scs ++ ['-', '0', '1']))) =
      (['0', '0'], tcs ++ '-' :: (scs ++ ['-', '0', '1'])) := by
    simp [cutDash]
  have e3 : cutDash (scs ++ ['-', '0', '1']) = (scs, ['0', '1']) :=
    cutDash_append scs ['0', '1'] hsd
  have E1 : extractPartHex 2 ('0' :: '0' :: '-' :: (tcs ++ '-' :: (scs ++ ['-', '0', '1']))) =
      some ([0], tcs ++ '-' :: (scs ++ ['-', '0', '1'])) := by
    unfold extractPartHex
    rw [e1]
    rfl
  have E2 : extractPartHex 32 (tcs ++ '-' :: (scs ++ ['-', '0', '1'])) =
      (match decodeHexBytesAny tcs with
       | some tb => some (tb, scs ++ ['-', '0', '1'])
       | none => none) := by
    unfold extractPartHex
    rw [cutDash_append tcs (scs ++ ['-', '0', '1']) htd]
    simp only [htl]
    rfl
  have E3 : extractPartHex 16 (scs ++ ['-', '0', '1']) =
      (match decodeHexBytesAny scs with
       | some sb => some (sb, ['0', '1'])
       | none => none) := by
    unfold extractPartHex
    rw [e3]
    simp only [hsl]
    rfl
  unfold w3cExtractSpanContext
  rw [E1]
  simp only
  rw [E2]
  cases hdec : decodeHexBytesAny tcs with
  | none => simp
  | some tb =>
    simp only
    rw [E3]
    cases hdecs : decodeHexBytesAny scs with
    | none => simp
    | some sb =>
      simp only [show extractPartHex 2 ['0', '1'] = some ([1], []) from rfl]
      simp

theorem traceParentData (t s : String) :
    ("00-" ++ t ++ "-" ++ s ++ "-01").data =
      '0' :: '0' :: '-' :: (t.data ++ '-' :: (s.data ++ ['-', '0', '1'])) := by
  rw [string_data_append, string_data_append, string_data_append, string_data_append]
  rw [show ("00-" : String).data = ['0', '0', '-'] from rfl,
    show ("-" : String).data = ['-'] from rfl,
    show ("-01" : String).data = ['-', '0', '1'] from rfl]
  simp [List.append_assoc]

theorem traceParent_ne_empty (t s : String) : ("00-" ++ t ++ "-" ++ s ++ "-01") ≠ "" := by
  intro h
  rw [string_eq_empty_iff, traceParentData] at h
  exact List.noConfusion h

/-- Claim C6: SpanContextFromTraceData rejects the empty traceparent; any
successfully returned context has non-zero trace and span identifiers; and
a well-formed traceparent whose embedded trace id or span id consists
entirely of zero digits is rejected. -/
theorem c6_zero_ids_rejected :
    (∀ ts : String, SpanContextFromTraceData "" ts = none) ∧
    (∀ (tp ts : String) (sc : SpanContext),
        SpanContextFromTraceData tp ts = some sc →
        sc.traceID.all (fun b => b == 0) = false ∧
        sc.spanID.all (fun b => b == 0) = false) ∧
    (∀ (t s ts : String),
        t.data.length = 32 → s.data.length = 16 →
        (∀ c ∈ t.data, c ≠ '-') → (∀ c ∈ s.data, c ≠ '-') →
        ((∀ c ∈ t.data, c = '0') ∨ (∀ c ∈ s.data, c = '0')) →
        SpanContextFromTraceData ("00-" ++ t ++ "-" ++ s ++ "-01") ts = none) := by
  refine ⟨?_, ?_, ?_⟩
  · intro ts; rfl
  · intro tp ts sc h
    unfold SpanContextFromTraceData at h
    by_cases hemp : tp = ""
    · rw [if_pos hemp] at h
      exact Option.noConfusion h
    rw [if_neg hemp] at h
    unfold w3cExtractSpanContext at h
    cases h1 : extractPartHex 2 tp.data with
    | none => rw [h1] at h; exact Option.noConfusion h
    | some p1 =>
      obtain ⟨verBytes, r1⟩ := p1
      rw [h1] at h
      simp only at h
      by_cases hver : 254 < verBytes.headD 0
      · rw [if_pos hver] at h
        exact Option.noConfusion h
      rw [if_neg hver] at h
      cases h2 : extractPartHex 32 r1 with
      | none => rw [h2] at h; exact Option.noConfusion h
      | some p2 =>
        obtain ⟨tid, r2⟩ := p2
        rw [h2] at h
        simp only at h
        cases h3 : extractPartHex 16 r2 with
        | none => rw [h3] at h; exact Option.noConfusion h
        | some p3 =>
          obtain ⟨sid, r3⟩ := p3
          rw [h3] at h
          simp only at h
          cases h4 : extractPartHex 2 r3 with
          | none => rw [h4] at h; exact Option.noConfusion h
          | some p4 =>
            obtain ⟨flagBytes, r4⟩ := p4
            rw [h4] at h
            simp only at h
            by_cases h5 : verBytes.headD 0 = 0 ∧ r4 ≠ []
            · rw [if_pos h5] at h
              exact Option.noConfusion h
            rw [if_neg h5] at h
            by_cases h6 : (tid.all (fun b => b == 0) || sid.all (fun b => b == 0)) = true
            · rw [if_pos h6] at h
              exact Option.noConfusion h
            rw [if_neg h6] at h
            injection h with he
            subst he
            simp only [Bool.or_eq_true, not_or, Bool.not_eq_true] at h6
            exact h6
  · intro t s ts hlt hls htd hsd hz
    unfold SpanContextFromTraceData
    rw [if_neg (traceParent_ne_empty t s), traceParentData,
      w3cExtract_canonical t.data s.data hlt hls htd hsd]
    cases hz with
    | inl hzt =>
      cases hdec : decodeHexBytesAny t.data with
      | none => rfl
      | some tb =>
        cases hdecs : decodeHexBytesAny s.data with
        | none => rfl
        | some sb =>
          simp only
          rw [if_pos]
          rw [decodeHexBytesAny_zeros t.data tb hdec hzt]
          simp
    | inr hzs =>
      cases hdec : decodeHexBytesAny t.data with
      | none => rfl
      | some tb =>
        cases hdecs : decodeHexBytesAny s.data with
        | none => rfl
        | some sb =>
          simp only
          rw [if_pos]
          rw [decodeHexBytesAny_zeros s.data sb hdecs hzs]
          simp

theorem c6_zero_ids_rejected_witness :
    SpanContextFromTraceData "" "" = none ∧
    (SpanContext.traceID
        ⟨[1, 2, 3, 4, 5, 6, 7, 8, 9, 10, 11, 12, 13, 14, 15, 16],
         [1, 2, 3, 4, 5, 6, 7, 8], 1, true⟩).all (fun b => b == 0) = false ∧
    SpanContextFromTraceData ("00-" ++ allZeroTraceIDHex ++ "-" ++ exampleSpanIDHex ++ "-01")
      "" = none :=
  ⟨c6_zero_ids_rejected.1 "",
   (c6_zero_ids_rejected.2.1 exampleTraceParent ""
      ⟨[1, 2, 3, 4, 5, 6, 7, 8, 9, 10, 11, 12, 13, 14, 15, 16],
       [1, 2, 3, 4, 5, 6, 7, 8], 1, true⟩ (by decide)).1,
   c6_zero_ids_rejected.2.2 allZeroTraceIDHex exampleSpanIDHex "" (by decide) (by decide)
     (by decide) (by decide) (Or.inl (by decide))⟩

/-- Claim C5: for every pair of identifiers accepted by the otel hex
parsers (32 and 16 lowercase hex characters, non-zero), TraceParentFromIDs
prints the canonical traceparent containing exactly those identifiers, and
SpanContextFromTraceData parses it back to a context whose identifiers
re-encode to exactly the original strings; and whenever the trace id or
span id has the wrong length, TraceParentFromIDs reports an error. -/
theorem c5_codec_roundtrip :
    (∀ (t s : String) (tb sb : List Nat),
        TraceIDFromHex t = some tb → SpanIDFromHex s = some sb →
        TraceParentFromIDs t s = some ("00-" ++ t ++ "-" ++ s ++ "-01") ∧
        SpanContextFromTraceData ("00-" ++ t ++ "-" ++ s ++ "-01") "" =
          some ⟨tb, sb, 1, true⟩ ∧
        encodeHexString tb = t ∧ encodeHexString sb = s) ∧
    (∀ t s : String, t.length ≠ 32 ∨ s.length ≠ 16 → TraceParentFromIDs t s = none) := by
  constructor
  · intro t s tb sb h1 h2
    unfold TraceIDFromHex at h1
    by_cases hlt : t.length = 32
    swap
    · rw [if_neg hlt] at h1
      exact absurd h1 (by simp)
    rw [if_pos hlt] at h1
    cases hdt : decodeHexBytes t.data with
    | none =>
      rw [hdt] at h1
      exact absurd h1 (by simp)
    | some bt =>
      rw [hdt] at h1
      simp only at h1
      by_cases hzt : bt.all (fun b => b == 0) = true
      · rw [if_pos hzt] at h1
        exact absurd h1 (by simp)
      rw [if_neg hzt] at h1
      injection h1 with h1e
      subst h1e
      unfold SpanIDFromHex at h2
      by_cases hls : s.length = 16
      swap
      · rw [if_neg hls] at h2
        exact absurd h2 (by simp)
      rw [if_pos hls] at h2
      cases hds : decodeHexBytes s.data with
      | none =>
        rw [hds] at h2
        exact absurd h2 (by simp)
      | some bs2 =>
        rw [hds] at h2
        simp only at h2
        by_cases hzs : bs2.all (fun b => b == 0) = true
        · rw [if_pos hzs] at h2
          exact absurd h2 (by simp)
        rw [if_neg hzs] at h2
        injection h2 with h2e
        subst h2e
        have henct : encodeHexString bt = t := by
          unfold encodeHexString
          rw [decodeHexBytes_encode t.data bt hdt, string_mk_data]
        have hencs : encodeHexString bs2 = s := by
          unfold encodeHexString
          rw [decodeHexBytes_encode s.data bs2 hds, string_mk_data]
        have hne : ¬(t = "" ∨ s = "") := by
          rintro (he | he)
          · rw [he] at hlt
            exact absurd hlt (by decide)
          · rw [he] at hls
            exact absurd hls (by decide)
        have hT : TraceIDFromHex t = some bt := by
          unfold TraceIDFromHex
          rw [if_pos hlt, hdt]
          simp only
          rw [if_neg hzt]
        have hS : SpanIDFromHex s = some bs2 := by
          unfold SpanIDFromHex
          rw [if_pos hls, hds]
          simp only
          rw [if_neg hzs]
        refine ⟨?_, ?_, henct, hencs⟩
        · unfold TraceParentFromIDs
          rw [if_neg hne, hT, hS]
          simp only
          rw [henct, hencs]
        · unfold SpanContextFromTraceData
          rw [if_neg (traceParent_ne_empty t s), traceParentData,
            w3cExtract_canonical t.data s.data
              (by rw [← string_length_data]; exact hlt)
              (by rw [← string_length_data]; exact hls)
              (decodeHexBytes_no_dash t.data bt hdt)
              (decodeHexBytes_no_dash s.data bs2 hds),
            decodeHexBytes_any t.data bt hdt, decodeHexBytes_any s.data bs2 hds]
          simp only
          rw [if_neg]
          simp only [Bool.or_eq_true, not_or, Bool.not_eq_true]
          exact ⟨by simpa using hzt, by simpa using hzs⟩
  · intro t s h
    unfold TraceParentFromIDs
    by_cases hemp : t = "" ∨ s = ""
    · rw [if_pos hemp]
    rw [if_neg hemp]
    cases h with
    | inl hne32 =>
      have hT : TraceIDFromHex t = none := by
        unfold TraceIDFromHex
        rw [if_neg hne32]
      rw [hT]
    | inr hne16 =>
      have hS : SpanIDFromHex s = none := by
        unfold SpanIDFromHex
        rw [if_neg hne16]
      rw [hS]
      cases TraceIDFromHex t <;> rfl

theorem c5_codec_roundtrip_witness :
    (TraceParentFromIDs exampleTraceIDHex exampleSpanIDHex =
        some ("00-" ++ exampleTraceIDHex ++ "-" ++ exampleSpanIDHex ++ "-01") ∧
      SpanContextFromTraceData ("00-" ++ exampleTraceIDHex ++ "-" ++ exampleSpanIDHex ++ "-01")
          "" =
        some ⟨[1, 2, 3, 4, 5, 6, 7, 8, 9, 10, 11, 12, 13, 14, 15, 16],
          [1, 2, 3, 4, 5, 6, 7, 8], 1, true⟩ ∧
      encodeHexString [1, 2, 3, 4, 5, 6, 7, 8, 9, 10, 11, 12, 13, 14, 15, 16] =
        exampleTraceIDHex ∧
      encodeHexString [1, 2, 3, 4, 5, 6, 7, 8] = exampleSpanIDHex) ∧
    TraceParentFromIDs "0102" exampleSpanIDHex = none :=
  ⟨c5_codec_roundtrip.1 exampleTraceIDHex exampleSpanIDHex
      [1, 2, 3, 4, 5, 6, 7, 8, 9, 10, 11, 12, 13, 14, 15, 16]
      [1, 2, 3, 4, 5, 6, 7, 8] (by decide) (by decide),
   c5_codec_roundtrip.2 "0102" exampleSpanIDHex (Or.inl (by decide))⟩

/-- Claim C7 counterexample: the first candidate key holds a value that
does not parse as a trace context while the second candidate holds a valid
traceparent, yet extraction returns the unparsable first value: candidates
are selected by non-emptiness, not by successful parsing. -/
theorem c7_counterexample :
    ExtractTraceContextFromAnnotations exampleShadowedAnnotations
        exampleExtractionConfig = some ⟨"not-a-traceparent", "", 0⟩ ∧
    SpanContextFromTraceData "not-a-traceparent" "" = none ∧
    SpanContextFromTraceData exampleTraceParent "" ≠ none := by
  refine ⟨by decide, by decide, by decide⟩

/-- Claim C7 (amended): extraction walks the candidate keys in order and
returns the value of the first non-empty key whose annotation value is
non-empty, without validating that the value parses; the legacy flat
fields are consulted only when every carrier candidate yields an empty
value, and the legacy identifiers are validated and framed through
TraceParentFromIDs. -/
theorem c7_extraction_first_nonempty :
    (∀ (ann : List (String × String)) (k : String) (keys : List String),
        k ≠ "" → annLookupD ann k ≠ "" →
        firstAnnotationValue ann (k :: keys) = annLookupD ann k) ∧
    (∀ (ann : List (String × String)) (k : String) (keys : List String),
        k = "" ∨ annLookupD ann k = "" →
        firstAnnotationValue ann (k :: keys) = firstAnnotationValue ann keys) ∧
    (∀ (ann : List (String × String)) (cfg : AnnotationExtractionConfig),
        ann.length ≠ 0 → firstAnnotationValue ann cfg.traceParentKeys ≠ "" →
        (ExtractTraceContextFromAnnotations ann cfg).map (fun c => c.traceParent) =
          some (firstAnnotationValue ann cfg.traceParentKeys) ∧
        (ExtractTraceContextFromAnnotations ann cfg).map (fun c => c.traceState) =
          some (firstAnnotationValue ann cfg.traceStateKeys)) ∧
    (∀ (ann : List (String × String)) (cfg : AnnotationExtractionConfig),
        ann.length ≠ 0 → firstAnnotationValue ann cfg.traceParentKeys = "" →
        cfg.legacyTraceIDKey ≠ "" → cfg.legacySpanIDKey ≠ "" →
        annLookupD ann cfg.legacyTraceIDKey ≠ "" →
        annLookupD ann cfg.legacySpanIDKey ≠ "" →
        (ExtractTraceContextFromAnnotations ann cfg).map (fun c => c.traceParent) =
          TraceParentFromIDs (annLookupD ann cfg.legacyTraceIDKey)
            (annLookupD ann cfg.legacySpanIDKey)) := by
  refine ⟨?_, ?_, ?_, ?_⟩
  · intro ann k keys hk hv
    unfold firstAnnotationValue
    rw [if_neg hk]
    simp only
    rw [if_pos hv]
  · intro ann k keys h
    conv_lhs => rw [firstAnnotationValue]
    cases h with
    | inl hk =>
      rw [if_pos hk]
    | inr hv =>
      by_cases hk : k = ""
      · rw [if_pos hk]
      · rw [if_neg hk]
        simp only
        rw [if_neg (by simp [hv])]
  · intro ann cfg hlen hfv
    unfold ExtractTraceContextFromAnnotations
    rw [if_neg hlen]
    simp only
    rw [if_pos hfv]
    exact ⟨rfl, rfl⟩
  · intro ann cfg hlen hfv hleg1 hleg2 hid1 hid2
    unfold ExtractTraceContextFromAnnotations
    rw [if_neg hlen]
    simp only
    rw [if_neg (by simp [hfv])]
    rw [if_neg (by rintro (h | h); exact hleg1 h; exact hleg2 h)]
    rw [if_neg (by rintro (h | h); exact hid1 h; exact hid2 h)]
    cases htp : TraceParentFromIDs (annLookupD ann cfg.legacyTraceIDKey)
        (annLookupD ann cfg.legacySpanIDKey) with
    | none => rfl
    | some tp => rfl

theorem c7_extraction_first_nonempty_witness :
    firstAnnotationValue [("k", "v")] ["k", "other"] = annLookupD [("k", "v")] "k" ∧
    firstAnnotationValue [("k", "v")] ["", "k"] = firstAnnotationValue [("k", "v")] ["k"] ∧
    (ExtractTraceContextFromAnnotations exampleShadowedAnnotations
        exampleExtractionConfig).map (fun c => c.traceParent) =
      some (firstAnnotationValue exampleShadowedAnnotations
        exampleExtractionConfig.traceParentKeys) ∧
    (ExtractTraceContextFromAnnotations exampleLegacyAnnotations
        exampleExtractionConfig).map (fun c => c.traceParent) =
      TraceParentFromIDs
        (annLookupD exampleLegacyAnnotations exampleExtractionConfig.legacyTraceIDKey)
        (annLookupD exampleLegacyAnnotations exampleExtractionConfig.legacySpanIDKey) :=
  ⟨c7_extraction_first_nonempty.1 [("k", "v")] "k" ["other"] (by decide) (by decide),
   c7_extraction_first_nonempty.2.1 [("k", "v")] "" ["k"] (Or.inl rfl),
   (c7_extraction_first_nonempty.2.2.1 exampleShadowedAnnotations
      exampleExtractionConfig (by decide) (by decide)).1,
   c7_extraction_first_nonempty.2.2.2 exampleLegacyAnnotations exampleExtractionConfig
     (by decide) (by decide) (by decide) (by decide) (by decide) (by decide)⟩

theorem mapInsert_self {β : Type} (m : MapNN β) (k : NamespacedName) (v : β) :
    mapInsert m k v k = some v := by
  unfold mapInsert
  rw [if_pos rfl]

theorem mapErase_self {β : Type} (m : MapNN β) (k : NamespacedName) :
    mapErase m k k = none := by
  unfold mapErase
  rw [if_pos rfl]

theorem appendLinkedSpan_namespacedName (req : RequestWithTraceID) (span : LinkedSpan) :
    (appendLinkedSpan req span).namespacedName = req.namespacedName := by
  unfold appendLinkedSpan
  split
  · rfl
  · split
    · rfl
    · split
      · rfl
      · rfl

theorem headD_set_zero (l : List LinkedSpan) (x d : LinkedSpan) (h : 0 < l.length) :
    (l.set 0 x).headD d = x := by
  cases l with
  | nil => simp at h
  | cons a as => rfl

/-- Claim C1: two Adds with the same key and different parents before any
Get collapse into one stored unit whose linked-span count is 1 and whose
single linked span is the second Add's parent pair; Get returns that
merged unit; and a further Add for the key issued after that Get but
before Done marks the key dirty in the backing queue, so after Done the
key is delivered again by the next Get. -/
theorem c1_queue_merge (k : NamespacedName) (u1 u2 u3 : RequestWithTraceID)
    (h1k : u1.namespacedName = k) (h2k : u2.namespacedName = k)
    (h3k : u3.namespacedName = k)
    (h1cnt : u1.linkedSpanCount = 0) (h1len : u1.linkedSpans.length = 10)
    (hpar : u1.parent.traceID ≠ u2.parent.traceID ∨ u1.parent.spanID ≠ u2.parent.spanID)
    (hne : ¬(u2.parent.traceID.length = 0 ∧ u2.parent.spanID.length = 0)) :
    ∃ (got : RequestWithTraceID) (tq3 : TracingQueue),
      TracingQueue.Get (TracingQueue.Add (TracingQueue.Add NewTracingQueue u1) u2) =
        some (got, tq3) ∧
      got.linkedSpanCount = 1 ∧
      got.linkedSpans.headD ⟨"", ""⟩ = ⟨u2.parent.traceID, u2.parent.spanID⟩ ∧
      ∃ (got2 : RequestWithTraceID) (tq6 : TracingQueue),
        TracingQueue.Get (TracingQueue.Done (TracingQueue.Add tq3 u3) got) =
          some (got2, tq6) ∧
        got2.namespacedName = k := by
  subst h1k
  obtain ⟨k2, p2, ls2, c2⟩ := u2
  simp only at h2k hpar hne
  subst h2k
  obtain ⟨k3, p3, ls3, c3⟩ := u3
  simp only at h3k
  subst h3k
  set mrg := appendLinkedSpan u1 ⟨p2.traceID, p2.spanID⟩ with hmrg
  have hfilt : ([u1.namespacedName].filter
      (fun x => decide (x ≠ u1.namespacedName))) = [] := by simp
  have hS1 : TracingQueue.Add NewTracingQueue u1 =
      ⟨⟨[u1.namespacedName], [u1.namespacedName], []⟩,
        mapInsert mapEmpty u1.namespacedName u1, mapEmpty⟩ := rfl
  have hwq2 : wqAdd ⟨[u1.namespacedName], [u1.namespacedName], []⟩ u1.namespacedName =
      ⟨[u1.namespacedName], [u1.namespacedName], []⟩ := by
    unfold wqAdd
    rw [if_pos (List.mem_cons_self _ _)]
  have hwq3 : wqGet ⟨[u1.namespacedName], [u1.namespacedName], []⟩ =
      some (u1.namespacedName, ⟨[], [], [u1.namespacedName]⟩) := by
    unfold wqGet
    dsimp only
    rw [hfilt]
  have hcnt : mrg.linkedSpanCount = 1 := by
    rw [hmrg]
    unfold appendLinkedSpan
    rw [if_neg hne, h1cnt, if_neg (by simp), if_pos (by rw [h1len]; norm_num)]
  have hhead : mrg.linkedSpans.headD ⟨"", ""⟩ = ⟨p2.traceID, p2.spanID⟩ := by
    rw [hmrg]
    unfold appendLinkedSpan
    rw [if_neg hne, h1cnt, if_neg (by simp), if_pos (by rw [h1len]; norm_num)]
    exact headD_set_zero _ _ _ (by rw [h1len]; norm_num)
  have hnn : mrg.namespacedName = u1.namespacedName := appendLinkedSpan_namespacedName _ _
  have hS2 : TracingQueue.Add (TracingQueue.Add NewTracingQueue u1)
      ⟨u1.namespacedName, p2, ls2, c2⟩ =
      ⟨⟨[u1.namespacedName], [u1.namespacedName], []⟩,
        mapInsert (mapInsert mapEmpty u1.namespacedName u1) u1.namespacedName mrg,
        mapEmpty⟩ := by
    rw [hS1]
    unfold TracingQueue.Add
    dsimp only
    rw [mapInsert_self]
    dsimp only
    rw [if_pos hpar, hwq2]
  have hGet2 : TracingQueue.Get
      (⟨⟨[u1.namespacedName], [u1.namespacedName], []⟩,
        mapInsert (mapInsert mapEmpty u1.namespacedName u1) u1.namespacedName mrg,
        mapEmpty⟩ : TracingQueue) =
      some (mrg,
        ⟨⟨[], [], [u1.namespacedName]⟩,
          mapInsert (mapInsert mapEmpty u1.namespacedName u1) u1.namespacedName mrg,
          mapEmpty⟩) := by
    unfold TracingQueue.Get
    dsimp only
    rw [hwq3]
    dsimp only
    rw [mapInsert_self]
  refine ⟨mrg,
    ⟨⟨[], [], [u1.namespacedName]⟩,
      mapInsert (mapInsert mapEmpty u1.namespacedName u1) u1.namespacedName mrg,
      mapEmpty⟩,
    ?_, hcnt, hhead, ?_⟩
  · rw [hS2]
    exact hGet2
  · have hwq4 : wqAdd ⟨[], [], [u1.namespacedName]⟩ u1.namespacedName =
        ⟨[], [u1.namespacedName], [u1.namespacedName]⟩ := by
      unfold wqAdd
      rw [if_neg (by simp)]
      dsimp only
      rw [if_pos (List.mem_cons_self _ _)]
    have hAdd3 : TracingQueue.Add
        (⟨⟨[], [], [u1.namespacedName]⟩,
          mapInsert (mapInsert mapEmpty u1.namespacedName u1) u1.namespacedName mrg,
          mapEmpty⟩ : TracingQueue)
        ⟨u1.namespacedName, p3, ls3, c3⟩ =
        ⟨⟨[], [u1.namespacedName], [u1.namespacedName]⟩,
          mapInsert (mapInsert (mapInsert mapEmpty u1.namespacedName u1)
              u1.namespacedName mrg) u1.namespacedName
            (if mrg.parent.traceID ≠ p3.traceID ∨ mrg.parent.spanID ≠ p3.spanID then
              appendLinkedSpan mrg ⟨p3.traceID, p3.spanID⟩
             else mrg),
          mapEmpty⟩ := by
      unfold TracingQueue.Add
      dsimp only
      rw [mapInsert_self]
      dsimp only
      rw [hwq4]
    have hVnn : (if mrg.parent.traceID ≠ p3.traceID ∨ mrg.parent.spanID ≠ p3.spanID then
        appendLinkedSpan mrg ⟨p3.traceID, p3.spanID⟩
       else mrg).namespacedName = u1.namespacedName := by
      split
      · rw [appendLinkedSpan_namespacedName]
        exact hnn
      · exact hnn
    have hwq5 : wqDone ⟨[], [u1.namespacedName], [u1.namespacedName]⟩ u1.namespacedName =
        ⟨[u1.namespacedName], [u1.namespacedName], []⟩ := by
      unfold wqDone
      dsimp only
      rw [hfilt]
      rw [if_pos (List.mem_cons_self _ _)]
      rfl
    have hDone : TracingQueue.Done
        (⟨⟨[], [u1.namespacedName], [u1.namespacedName]⟩,
          mapInsert (mapInsert (mapInsert mapEmpty u1.namespacedName u1)
              u1.namespacedName mrg) u1.namespacedName
            (if mrg.parent.traceID ≠ p3.traceID ∨ mrg.parent.spanID ≠ p3.spanID then
              appendLinkedSpan mrg ⟨p3.traceID, p3.spanID⟩
             else mrg),
          mapEmpty⟩ : TracingQueue) mrg =
        ⟨⟨[u1.namespacedName], [u1.namespacedName], []⟩,
          mapErase (mapInsert (mapInsert (mapInsert mapEmpty u1.namespacedName u1)
              u1.namespacedName mrg) u1.namespacedName
            (if mrg.parent.traceID ≠ p3.traceID ∨ mrg.parent.spanID ≠ p3.spanID then
              appendLinkedSpan mrg ⟨p3.traceID, p3.spanID⟩
             else mrg)) u1.namespacedName,
          mapInsert mapEmpty u1.namespacedName
            (if mrg.parent.traceID ≠ p3.traceID ∨ mrg.parent.spanID ≠ p3.spanID then
              appendLinkedSpan mrg ⟨p3.traceID, p3.spanID⟩
             else mrg)⟩ := by
      unfold TracingQueue.Done
      dsimp only
      rw [hnn]
      rw [mapInsert_self]
      dsimp only
      rw [hwq5]
    refine ⟨(if mrg.parent.traceID ≠ p3.traceID ∨ mrg.parent.spanID ≠ p3.spanID then
        appendLinkedSpan mrg ⟨p3.traceID, p3.spanID⟩
       else mrg),
      ⟨⟨[], [], [u1.namespacedName]⟩,
        mapErase (mapInsert (mapInsert (mapInsert mapEmpty u1.namespacedName u1)
            u1.namespacedName mrg) u1.namespacedName
          (if mrg.parent.traceID ≠ p3.traceID ∨ mrg.parent.spanID ≠ p3.spanID then
            appendLinkedSpan mrg ⟨p3.traceID, p3.spanID⟩
           else mrg)) u1.namespacedName,
        mapInsert mapEmpty u1.namespacedName
          (if mrg.parent.traceID ≠ p3.traceID ∨ mrg.parent.spanID ≠ p3.spanID then
            appendLinkedSpan mrg ⟨p3.traceID, p3.spanID⟩
           else mrg)⟩,
      ?_, hVnn⟩
    rw [hAdd3, hDone]
    unfold TracingQueue.Get
    dsimp only
    rw [hwq3]
    dsimp only
    rw [mapErase_self]
    dsimp only
    rw [mapInsert_self]

theorem c1_queue_merge_witness :
    ∃ (got : RequestWithTraceID) (tq3 : TracingQueue),
      TracingQueue.Get (TracingQueue.Add (TracingQueue.Add NewTracingQueue
          (exampleRequest exampleParentOld)) (exampleRequest exampleParentNew)) =
        some (got, tq3) ∧
      got.linkedSpanCount = 1 ∧
      got.linkedSpans.headD ⟨"", ""⟩ = ⟨"trace-new", "span-new"⟩ ∧
      ∃ (got2 : RequestWithTraceID) (tq6 : TracingQueue),
        TracingQueue.Get (TracingQueue.Done (TracingQueue.Add tq3
            (exampleRequest exampleParentThird)) got) =
          some (got2, tq6) ∧
        got2.namespacedName = exampleKey :=
  c1_queue_merge exampleKey (exampleRequest exampleParentOld)
    (exampleRequest exampleParentNew) (exampleRequest exampleParentThird)
    rfl rfl rfl rfl rfl (Or.inl (by decide)) (by decide)

theorem conditionRemoteContext_ann (o : K8sObject) (ann2 : List (String × String))
    (tid : String) (now : Int) :
    conditionRemoteContext ⟨o.conditionsOk, o.conditions, ann2⟩ tid now =
      conditionRemoteContext o tid now := rfl

/-- Claim C8 counterexample: the object carries one fresh valid context in
its TraceID / SpanID conditions and a different fresh valid context in its
legacy annotations; with no live context the helper anchors on the
condition context, not the annotation context, so the condition side
channel is consulted first, contradicting the claimed
annotations-before-conditions order. -/
theorem c8_counterexample :
    startSpanFromContext emptySpanContext (some exampleAnchorObject) 0 =
      SpanAnchor.remoteParent ⟨List.replicate 16 170, List.replicate 8 187, 1, true⟩ ∧
    annotationRemoteContext exampleAnchorObject 0 =
      some ⟨List.replicate 16 204, List.replicate 8 221, 1, true⟩ ∧
    List.replicate 16 170 ≠ List.replicate (16 : Nat) 204 := by
  refine ⟨by decide, by decide, by decide⟩

/-- Claim C8 (amended): a valid live context always wins; when the live
context is invalid, the condition-based side channel is consulted first
(the annotation map is irrelevant whenever the TraceID condition lookup
succeeds), and the legacy flat annotations are consulted only when the
condition lookup fails with an error; on both paths a recovered context is
used only when its timestamp is not strictly older than now minus the
20-minute expiration window, and the surviving context is installed as a
remote parent. -/
theorem c8_anchor_order :
    (∀ (live : SpanContext) (obj : Option K8sObject) (now : Int),
        live.isValid = true →
        startSpanFromContext live obj now = SpanAnchor.liveParent live) ∧
    (∀ (live : SpanContext) (o : K8sObject) (ann2 : List (String × String))
        (tid : String) (now : Int),
        live.isValid = false →
        getConditionMessage "TraceID" o = some tid →
        startSpanFromContext live (some ⟨o.conditionsOk, o.conditions, ann2⟩) now =
          startSpanFromContext live (some o) now) ∧
    (∀ (o : K8sObject) (now : Int),
        getConditionMessage "TraceID" o = none →
        startSpanRemoteContext (some o) now = annotationRemoteContext o now) ∧
    (∀ (o : K8sObject) (tid : String) (t now : Int),
        getConditionTime "TraceID" o = some t → t < now - TraceExpirationNanos →
        conditionRemoteContext o tid now = none) ∧
    (∀ (o : K8sObject) (timeStr : String) (t now : Int),
        annLookup? o.annotations traceIDTimeAnnotationKey = some timeStr →
        parseRFC3339 timeStr = some t → t < now - TraceExpirationNanos →
        annotationRemoteContext o now = none) := by
  refine ⟨?_, ?_, ?_, ?_, ?_⟩
  · intro live obj now hlv
    unfold startSpanFromContext
    rw [if_pos hlv]
  · intro live o ann2 tid now hlv hc
    have hc2 : getConditionMessage "TraceID"
        (⟨o.conditionsOk, o.conditions, ann2⟩ : K8sObject) = some tid := hc
    unfold startSpanFromContext startSpanRemoteContext
    dsimp only
    rw [hc, hc2]
    simp only [hlv]
    try dsimp only
    rw [conditionRemoteContext_ann]
  · intro o now hc
    unfold startSpanRemoteContext
    dsimp only
    rw [hc]
  · intro o tid t now hct hexp
    unfold conditionRemoteContext
    by_cases htid : tid ≠ ""
    · rw [if_pos htid, hct]
      dsimp only
      rw [if_pos hexp]
    · rw [if_neg htid]
  · intro o timeStr t now hts hpt hexp
    unfold annotationRemoteContext
    cases hl : annLookup? o.annotations traceIDAnnotationKey with
    | none => rfl
    | some tid =>
      dsimp only
      by_cases htid : tid ≠ ""
      · rw [if_pos htid, hts]
        dsimp only
        rw [hpt]
        dsimp only
        rw [if_pos hexp]
      · rw [if_neg htid]

theorem c8_anchor_order_witness :
    startSpanFromContext exampleLiveContext none 0 =
      SpanAnchor.liveParent exampleLiveContext ∧
    startSpanFromContext emptySpanContext
        (some ⟨exampleAnchorObject.conditionsOk, exampleAnchorObject.conditions, []⟩) 0 =
      startSpanFromContext emptySpanContext (some exampleAnchorObject) 0 ∧
    startSpanRemoteContext (some exampleAnnotationOnlyObject) 0 =
      annotationRemoteContext exampleAnnotationOnlyObject 0 ∧
    conditionRemoteContext exampleAnchorObject
      "aaaaaaaaaaaaaaaaaaaaaaaaaaaaaaaa" 2000000000000 = none ∧
    annotationRemoteContext exampleAnchorObject 2000000000000 = none :=
  ⟨c8_anchor_order.1 exampleLiveContext none 0 (by decide),
   c8_anchor_order.2.1 emptySpanContext exampleAnchorObject [] 
     "aaaaaaaaaaaaaaaaaaaaaaaaaaaaaaaa" 0 (by decide) (by decide),
   c8_anchor_order.2.2.1 exampleAnnotationOnlyObject 0 (by decide),
   c8_anchor_order.2.2.2.1 exampleAnchorObject "aaaaaaaaaaaaaaaaaaaaaaaaaaaaaaaa" 0
     2000000000000 (by decide) (by decide),
   c8_anchor_order.2.2.2.2 exampleAnchorObject "0001-01-01T00:00:00Z" 0 2000000000000
     (by decide) (by decide) (by decide)⟩
